import Mathlib

/-!
Verification development for the Games of Life cellular-automaton engine.

The definitions below are a shallow embedding of:
* the WGSL compute shader (step evaluator `main`, topology resolver
  `get_cell`, the five neighbor counters) — file `part_003`;
* the CPU topology resolver `transformCoordinate` and its wrap/flip
  predicates — `src/lib/nlca/neighborhood.ts`;
* the tape bitset packing `pack01ToBitset` / `unpackBitsetTo01` —
  `src/lib/nlca/tape.ts`.

Cell buffers are modelled as total functions `Nat → Nat` (the shader's
`array<u32>` storage buffers); coordinates are `Int` (the shader's `i32`,
JS numbers restricted to integers).  WGSL's `((x % w) + w) % w` idiom on
`i32` produces the Euclidean remainder, which is what `Int.emod` (Lean's
`%`) computes; the composite expression is kept literally and agrees with
the source on every input.
-/

/-- Boundary modes, in the order of the shader's `u32` encoding
(0=plane, 1=cylinderX, 2=cylinderY, 3=torus, 4=mobiusX, 5=mobiusY,
6=kleinX, 7=kleinY, 8=projectivePlane); the same tokens are the TS
`BoundaryMode` union. -/
inductive BoundaryMode where
  | plane
  | cylinderX
  | cylinderY
  | torus
  | mobiusX
  | mobiusY
  | kleinX
  | kleinY
  | projectivePlane
deriving DecidableEq, Repr

/-- Neighborhood selector, in the order of the shader's `u32` encoding
(0=Moore, 1=Von Neumann, 2=Extended Moore, 3=Hexagonal,
4=Extended Hexagonal). -/
inductive Neighborhood where
  | moore
  | vonNeumann
  | extendedMoore
  | hexagonal
  | extendedHexagonal
deriving DecidableEq, Repr

/-- The shader's uniform `Params` struct (padding omitted). -/
structure Params where
  width : Nat
  height : Nat
  birth_mask : Nat
  survive_mask : Nat
  num_states : Nat
  boundary_mode : BoundaryMode
  neighborhood : Neighborhood
deriving DecidableEq, Repr

/-- Shader `get_cell`, horizontal-wrap test: the `u32` comparisons
`mode == 1u || mode == 3u || mode == 4u || mode == 6u || mode == 7u || mode == 8u`. -/
def wraps_x : BoundaryMode → Bool
  | .cylinderX | .torus | .mobiusX | .kleinX | .kleinY | .projectivePlane => true
  | _ => false

/-- Shader `get_cell`, horizontal-flip test: `mode == 4u || mode == 6u || mode == 8u`. -/
def flips_x : BoundaryMode → Bool
  | .mobiusX | .kleinX | .projectivePlane => true
  | _ => false

/-- Shader `get_cell`, vertical-wrap test:
`mode == 2u || mode == 3u || mode == 5u || mode == 6u || mode == 7u || mode == 8u`. -/
def wraps_y : BoundaryMode → Bool
  | .cylinderY | .torus | .mobiusY | .kleinX | .kleinY | .projectivePlane => true
  | _ => false

/-- Shader `get_cell`, vertical-flip test: `mode == 5u || mode == 7u || mode == 8u`. -/
def flips_y : BoundaryMode → Bool
  | .mobiusY | .kleinY | .projectivePlane => true
  | _ => false

/-- Shader `get_cell(x, y)`: resolve a possibly out-of-bounds request
against the boundary mode and read the front buffer, or return `0` for an
absent cell.  Literal translation of the WGSL: the horizontal branch wraps
`fx` and (on a flipping mode) sets `fy` to `h - 1 - y` from the original
`y`; the vertical branch then wraps that `fy` and (on a flipping mode)
mirrors `fx`; a final bounds check guards the buffer read. -/
def get_cell (p : Params) (g : Nat → Nat) (x y : Int) : Nat :=
  let w : Int := (p.width : Int)
  let h : Int := (p.height : Int)
  let mode := p.boundary_mode
  let out_x : Bool := decide (x < 0) || decide (x ≥ w)
  let out_y : Bool := decide (y < 0) || decide (y ≥ h)
  if out_x && !(wraps_x mode) then 0
  else
    let fx : Int := if out_x then ((x % w) + w) % w else x
    let fy : Int := if out_x && flips_x mode then h - 1 - y else y
    if out_y && !(wraps_y mode) then 0
    else
      let fy2 : Int := if out_y then ((fy % h) + h) % h else fy
      let fx2 : Int := if out_y && flips_y mode then w - 1 - fx else fx
      if fx2 < 0 || fx2 ≥ w || fy2 < 0 || fy2 ≥ h then 0
      else g (fx2.toNat + fy2.toNat * p.width)

/-- Shader `is_alive`: a cell counts as alive exactly when its state is `1`
(also for Generations rules). -/
def is_alive (state : Nat) : Bool := state == 1

/-- Tally the loop/if accumulation of the shader's neighbor counters: the
number of offsets `(dx, dy)` in the template whose resolved cell is alive. -/
def countAliveOffsets (p : Params) (g : Nat → Nat) (x y : Int)
    (offs : List (Int × Int)) : Nat :=
  offs.countP (fun o => is_alive (get_cell p g (x + o.1) (y + o.2)))

/-- The 8 Moore offsets in the shader's loop order (`dy` outer from −1 to 1,
`dx` inner, `(0,0)` skipped). -/
def mooreOffsets : List (Int × Int) :=
  [(-1, -1), (0, -1), (1, -1), (-1, 0), (1, 0), (-1, 1), (0, 1), (1, 1)]

/-- Shader `count_neighbors_moore`. -/
def count_neighbors_moore (p : Params) (g : Nat → Nat) (x y : Int) : Nat :=
  countAliveOffsets p g x y mooreOffsets

/-- The 4 Von Neumann offsets in the shader's statement order (N, S, W, E). -/
def vonNeumannOffsets : List (Int × Int) :=
  [(0, -1), (0, 1), (-1, 0), (1, 0)]

/-- Shader `count_neighbors_von_neumann`. -/
def count_neighbors_von_neumann (p : Params) (g : Nat → Nat) (x y : Int) : Nat :=
  countAliveOffsets p g x y vonNeumannOffsets

/-- The 24 extended-Moore offsets in the shader's loop order (`dy` outer
from −2 to 2, `dx` inner, `(0,0)` skipped). -/
def extendedMooreOffsets : List (Int × Int) :=
  [(-2, -2), (-1, -2), (0, -2), (1, -2), (2, -2),
   (-2, -1), (-1, -1), (0, -1), (1, -1), (2, -1),
   (-2, 0), (-1, 0), (1, 0), (2, 0),
   (-2, 1), (-1, 1), (0, 1), (1, 1), (2, 1),
   (-2, 2), (-1, 2), (0, 2), (1, 2), (2, 2)]

/-- Shader `count_neighbors_extended` (radius-2 Moore). -/
def count_neighbors_extended (p : Params) (g : Nat → Nat) (x y : Int) : Nat :=
  countAliveOffsets p g x y extendedMooreOffsets

/-- Shader `count_neighbors_hexagonal`: odd-r offset coordinates; the row
parity test is `(y & 1) == 1`, which on two's-complement `i32` is
`y % 2 = 1` with the Euclidean remainder.  Written as the literal chain of
conditional increments of the source. -/
def count_neighbors_hexagonal (p : Params) (g : Nat → Nat) (x y : Int) : Nat :=
  let is_odd_row : Bool := decide (y % 2 = 1)
  (if is_odd_row then
      (if is_alive (get_cell p g x (y - 1)) then 1 else 0)
        + (if is_alive (get_cell p g (x + 1) (y - 1)) then 1 else 0)
    else
      (if is_alive (get_cell p g (x - 1) (y - 1)) then 1 else 0)
        + (if is_alive (get_cell p g x (y - 1)) then 1 else 0))
  + (if is_alive (get_cell p g (x - 1) y) then 1 else 0)
  + (if is_alive (get_cell p g (x + 1) y) then 1 else 0)
  + (if is_odd_row then
      (if is_alive (get_cell p g x (y + 1)) then 1 else 0)
        + (if is_alive (get_cell p g (x + 1) (y + 1)) then 1 else 0)
    else
      (if is_alive (get_cell p g (x - 1) (y + 1)) then 1 else 0)
        + (if is_alive (get_cell p g x (y + 1)) then 1 else 0))

/-- Shader `count_neighbors_extended_hexagonal`: ring 1 (the 6 hexagonal
neighbors) plus ring 2 (12 outer cells), with the source's separate parity
tests `((y - 1) & 1) == 1` and `((y + 1) & 1) == 1` for the `y∓2` rows. -/
def count_neighbors_extended_hexagonal (p : Params) (g : Nat → Nat) (x y : Int) : Nat :=
  let is_odd_row : Bool := decide (y % 2 = 1)
  let is_odd_row_m1 : Bool := decide ((y - 1) % 2 = 1)
  let is_odd_row_p1 : Bool := decide ((y + 1) % 2 = 1)
  -- ring 1
  (if is_odd_row then
      (if is_alive (get_cell p g x (y - 1)) then 1 else 0)
        + (if is_alive (get_cell p g (x + 1) (y - 1)) then 1 else 0)
    else
      (if is_alive (get_cell p g (x - 1) (y - 1)) then 1 else 0)
        + (if is_alive (get_cell p g x (y - 1)) then 1 else 0))
  + (if is_alive (get_cell p g (x - 1) y) then 1 else 0)
  + (if is_alive (get_cell p g (x + 1) y) then 1 else 0)
  + (if is_odd_row then
      (if is_alive (get_cell p g x (y + 1)) then 1 else 0)
        + (if is_alive (get_cell p g (x + 1) (y + 1)) then 1 else 0)
    else
      (if is_alive (get_cell p g (x - 1) (y + 1)) then 1 else 0)
        + (if is_alive (get_cell p g x (y + 1)) then 1 else 0))
  -- ring 2, row y-2
  + (if is_odd_row_m1 then
      (if is_alive (get_cell p g x (y - 2)) then 1 else 0)
        + (if is_alive (get_cell p g (x + 1) (y - 2)) then 1 else 0)
    else
      (if is_alive (get_cell p g (x - 1) (y - 2)) then 1 else 0)
        + (if is_alive (get_cell p g x (y - 2)) then 1 else 0))
  -- ring 2, row y-1 far corners
  + (if is_odd_row then
      (if is_alive (get_cell p g (x - 1) (y - 1)) then 1 else 0)
        + (if is_alive (get_cell p g (x + 2) (y - 1)) then 1 else 0)
    else
      (if is_alive (get_cell p g (x - 2) (y - 1)) then 1 else 0)
        + (if is_alive (get_cell p g (x + 1) (y - 1)) then 1 else 0))
  -- ring 2, row y at distance 2
  + (if is_alive (get_cell p g (x - 2) y) then 1 else 0)
  + (if is_alive (get_cell p g (x + 2) y) then 1 else 0)
  -- ring 2, row y+1 far corners
  + (if is_odd_row then
      (if is_alive (get_cell p g (x - 1) (y + 1)) then 1 else 0)
        + (if is_alive (get_cell p g (x + 2) (y + 1)) then 1 else 0)
    else
      (if is_alive (get_cell p g (x - 2) (y + 1)) then 1 else 0)
        + (if is_alive (get_cell p g (x + 1) (y + 1)) then 1 else 0))
  -- ring 2, row y+2
  + (if is_odd_row_p1 then
      (if is_alive (get_cell p g x (y + 2)) then 1 else 0)
        + (if is_alive (get_cell p g (x + 1) (y + 2)) then 1 else 0)
    else
      (if is_alive (get_cell p g (x - 1) (y + 2)) then 1 else 0)
        + (if is_alive (get_cell p g x (y + 2)) then 1 else 0))

/-- Shader `count_neighbors`: dispatch on `params.neighborhood`
(`default` is Moore). -/
def count_neighbors (p : Params) (g : Nat → Nat) (x y : Int) : Nat :=
  match p.neighborhood with
  | .vonNeumann => count_neighbors_von_neumann p g x y
  | .extendedMoore => count_neighbors_extended p g x y
  | .hexagonal => count_neighbors_hexagonal p g x y
  | .extendedHexagonal => count_neighbors_extended_hexagonal p g x y
  | .moore => count_neighbors_moore p g x y

/-- One invocation of the shader's `main` entry point at
`global_id = (gx, gy)` (assumed in bounds; the dispatch guard is handled
by `backBuffer`): reads `cell_state_in[gx + gy*width]`, counts neighbors,
and computes the new state.  `(mask & (1u << n)) != 0u` is `Nat.testBit`
(the shift amount never exceeds 24, so the WGSL shift-masking is
inert). -/
def mainCell (p : Params) (g : Nat → Nat) (gx gy : Nat) : Nat :=
  let idx := gx + gy * p.width
  let current_state := g idx
  let neighbors := count_neighbors p g (gx : Int) (gy : Int)
  if p.num_states = 2 then
    if current_state = 0 then
      (if p.birth_mask.testBit neighbors then 1 else 0)
    else
      (if p.survive_mask.testBit neighbors then 1 else 0)
  else
    if current_state = 0 then
      (if p.birth_mask.testBit neighbors then 1 else 0)
    else if current_state = 1 then
      (if p.survive_mask.testBit neighbors then 1 else 2)
    else
      if current_state + 1 ≥ p.num_states then 0 else current_state + 1

/-- The back buffer produced by one full dispatch of the shader: cell
`i = gx + gy*width` (with `gx = i % width`, `gy = i / width`) holds the
value `main` writes there.  Meaningful for `i < width*height`, the indices
the dispatch covers. -/
def backBuffer (p : Params) (g : Nat → Nat) : Nat → Nat :=
  fun i => mainCell p g (i % p.width) (i / p.width)

/-! ### Concrete configurations used by the end-to-end scenarios -/

/-- Conway rule on a 5×5 torus: `birthMask = {3} = 8`,
`surviveMask = {2,3} = 12`, `numStates = 2`, Moore neighborhood. -/
def pConway5 : Params :=
  { width := 5, height := 5, birth_mask := 8, survive_mask := 12,
    num_states := 2, boundary_mode := .torus, neighborhood := .moore }

/-- Horizontal blinker front buffer: alive cells `(1,2),(2,2),(3,2)`,
row-major indices `11, 12, 13` on a width-5 grid. -/
def blinkerFront : Nat → Nat :=
  fun i => if i = 11 ∨ i = 12 ∨ i = 13 then 1 else 0

/-- Generations rule with empty masks on a 3×3 plane, `numStates = 4`. -/
def pDecay : Params :=
  { width := 3, height := 3, birth_mask := 0, survive_mask := 0,
    num_states := 4, boundary_mode := .plane, neighborhood := .moore }

/-- Front buffer with a single alive cell at the center (index 4). -/
def decayFront : Nat → Nat := fun i => if i = 4 then 1 else 0

/-- The six odd-row hexagonal neighbor offsets of the odd-r convention as
the spec lists them: top pair `(0,−1),(+1,−1)`, sides `(±1,0)`, bottom
pair `(0,+1),(+1,+1)`. -/
def hexOffsetsOddSpec : List (Int × Int) :=
  [(0, -1), (1, -1), (-1, 0), (1, 0), (0, 1), (1, 1)]

/-- The six even-row hexagonal neighbor offsets of the odd-r convention as
the spec lists them: top pair `(−1,−1),(0,−1)`, sides `(±1,0)`, bottom
pair `(−1,+1),(0,+1)`. -/
def hexOffsetsEvenSpec : List (Int × Int) :=
  [(-1, -1), (0, -1), (-1, 0), (1, 0), (-1, 1), (0, 1)]

/-- Hexagonal-lattice rule on a 5×5 plane. -/
def pHex5 : Params :=
  { width := 5, height := 5, birth_mask := 64, survive_mask := 64,
    num_states := 2, boundary_mode := .plane, neighborhood := .hexagonal }

/-- A front buffer equal to the blinker inside the 5×5 grid but with junk
outside the buffer domain. -/
def blinkerJunkOutside : Nat → Nat :=
  fun i => if i < 25 then blinkerFront i else 99

/-- Modelled from the spec: the per-neighbor contribution §4.3 attributes
to the aggregation, `1` for an alive neighbor, `V[⌊v·127⌋]` with
`v = (numStates − s)/(numStates − 1)` for a dying neighbor `2 ≤ s <
numStates`, `0` otherwise; the 128-entry vitality table is a function
consulted at indices `0..127`.  This definition exists only to state the
claim the shader's aggregation is measured against — the vitality pipeline
itself (the `@games-of-life/core` package) is not part of the shader. -/
def specNeighborContribution (numStates s : Nat) (V : Nat → ℚ) : ℚ :=
  if s = 1 then 1
  else if 2 ≤ s ∧ s < numStates then
    V (Int.toNat ⌊((numStates : ℚ) - (s : ℚ)) / ((numStates : ℚ) - 1) * 127⌋)
  else 0

/-- Conway masks with `numStates = 4` on a 3×3 torus. -/
def pC3 : Params :=
  { width := 3, height := 3, birth_mask := 8, survive_mask := 12,
    num_states := 4, boundary_mode := .torus, neighborhood := .moore }

/-- Front buffer whose only nonzero cell is `(0,1)` (index 3) in dying
state `2`. -/
def gC3 : Nat → Nat := fun i => if i = 3 then 2 else 0

/-- `tape.ts` `pack01ToBitset`, per-byte view: byte `j` accumulates the
loop iterations `i = 8j .. 8j+7` (those with `i >> 3 = j`), OR-ing
`1 << (i & 7)` whenever `grid01[i] ?? 0` is nonzero. -/
def packByte (grid : List Nat) (j : Nat) : Nat :=
  (List.range 8).foldl
    (fun acc b => if grid.getD (8 * j + b) 0 ≠ 0 then acc ||| (1 <<< b) else acc) 0

/-- `tape.ts` `pack01ToBitset`: `ceil(n/8)` bytes over the grid. -/
def pack01ToBitset (grid : List Nat) : List Nat :=
  (List.range ((grid.length + 7) / 8)).map (packByte grid)

/-- `tape.ts` `unpackBitsetTo01`: entry `i` is `(bits[i >> 3] >> (i & 7)) & 1`
(a missing byte reads as `0`, matching the JS coercion). -/
def unpackBitsetTo01 (bits : List Nat) (nCells : Nat) : List Nat :=
  (List.range nCells).map (fun i => (bits.getD (i / 8) 0 >>> (i % 8)) &&& 1)

/-- `neighborhood.ts` `isWrappingX`. -/
def isWrappingX : BoundaryMode → Bool
  | .cylinderX | .torus | .mobiusX | .kleinX | .kleinY | .projectivePlane => true
  | _ => false

/-- `neighborhood.ts` `isWrappingY`. -/
def isWrappingY : BoundaryMode → Bool
  | .cylinderY | .torus | .mobiusY | .kleinX | .kleinY | .projectivePlane => true
  | _ => false

/-- `neighborhood.ts` `flipsOnWrapX`. -/
def flipsOnWrapX : BoundaryMode → Bool
  | .mobiusX | .kleinX | .projectivePlane => true
  | _ => false

/-- `neighborhood.ts` `flipsOnWrapY`. -/
def flipsOnWrapY : BoundaryMode → Bool
  | .mobiusY | .kleinY | .projectivePlane => true
  | _ => false

/-- `neighborhood.ts` `transformCoordinate`: the CPU topology resolver.
Wrap counts are `Math.floor((-fx - 1)/width) + 1` on the negative side and
`Math.floor(fx/width)` on the positive side (both nonnegative, so `Int`
division matches `Math.floor`); flips are applied when the wrap count on
the crossing axis is odd (`xWraps & 1`, here `% 2` on a nonnegative
value); `null` is `none`. -/
def transformCoordinate (x y : Int) (width height : Nat)
    (boundary : BoundaryMode) : Option (Int × Int) :=
  let w : Int := (width : Int)
  let h : Int := (height : Int)
  if (decide (x < 0) || decide (x ≥ w)) && !(isWrappingX boundary) then none
  else
    let xWraps : Int :=
      if decide (x < 0) || decide (x ≥ w) then
        (if x < 0 then (-x - 1) / w + 1 else x / w)
      else 0
    let fx : Int :=
      if decide (x < 0) || decide (x ≥ w) then
        (if x < 0 then ((x % w) + w) % w else x % w)
      else x
    if (decide (y < 0) || decide (y ≥ h)) && !(isWrappingY boundary) then none
    else
      let yWraps : Int :=
        if decide (y < 0) || decide (y ≥ h) then
          (if y < 0 then (-y - 1) / h + 1 else y / h)
        else 0
      let fy : Int :=
        if decide (y < 0) || decide (y ≥ h) then
          (if y < 0 then ((y % h) + h) % h else y % h)
        else y
      let fy2 : Int := if flipsOnWrapX boundary && decide (xWraps % 2 = 1)
        then h - 1 - fy else fy
      let fx2 : Int := if flipsOnWrapY boundary && decide (yWraps % 2 = 1)
        then w - 1 - fx else fx
      if fx2 < 0 || fx2 ≥ w || fy2 < 0 || fy2 ≥ h then none
      else some (fx2, fy2)

/-- Width-1, height-2 Möbius-X configuration. -/
def pMobius12 : Params :=
  { width := 1, height := 2, birth_mask := 8, survive_mask := 12,
    num_states := 2, boundary_mode := .mobiusX, neighborhood := .moore }

/-- The identity buffer, used to tell cells apart. -/
def idGrid : Nat → Nat := fun i => i

/-- The Conway 5×5 configuration on the projective plane. -/
def pConway5proj : Params :=
  { width := 5, height := 5, birth_mask := 8, survive_mask := 12,
    num_states := 2, boundary_mode := .projectivePlane, neighborhood := .moore }

/-- C1: on the 5×5 torus with the Conway rule, one step of the evaluator
turns the horizontal blinker `(1,2),(2,2),(3,2)` into exactly the vertical
triple `(2,1),(2,2),(2,3)` (indices `7, 12, 17`), and a second step
restores exactly the original horizontal triple (indices `11, 12, 13`). -/
theorem blinker_period_two :
    ((List.range 25).filter (fun i => backBuffer pConway5 blinkerFront i = 1)
      = [7, 12, 17])
    ∧ ((List.range 25).filter
        (fun i => backBuffer pConway5 (backBuffer pConway5 blinkerFront) i = 1)
      = [11, 12, 13]) := by
  constructor
  · decide
  · decide

/-- `a < W` and `b < H` put the row-major index `a + b*W` inside the
`W*H`-cell buffer. -/
theorem rowMajor_lt (a b W H : Nat) (ha : a < W) (hb : b < H) :
    a + b * W < W * H := by
  calc a + b * W < W + b * W := by omega
    _ = (b + 1) * W := by ring
    _ ≤ H * W := Nat.mul_le_mul_right W hb
    _ = W * H := Nat.mul_comm H W

/-- C2: for every rule with `numStates ≥ 2`, every lattice and boundary
mode, and every front buffer whose cells lie in `[0, numStates)`, every
cell of the back buffer produced by one step lies in `[0, numStates)`. -/
theorem step_state_range (p : Params) (g : Nat → Nat)
    (hN : 2 ≤ p.num_states)
    (hg : ∀ i, i < p.width * p.height → g i < p.num_states) :
    ∀ i, i < p.width * p.height → backBuffer p g i < p.num_states := by
  intro i hi
  have hgi := hg i hi
  simp only [backBuffer, mainCell, Nat.mod_add_div]
  split_ifs <;> omega

/-- Witness for C2 on the Conway blinker configuration. -/
theorem step_state_range_witness : backBuffer pConway5 blinkerFront 12 < 2 := by
  have h := step_state_range pConway5 blinkerFront (by decide)
    (by decide) 12 (by decide)
  simpa using h

/-- With `birthMask = surviveMask = 0` and `numStates ≥ 3`, the mask tests
never fire (`Nat.testBit 0` is false), so one shader step acts cellwise as
the pure Generations decay transition. -/
theorem backBuffer_masks_zero (p : Params)
    (hb : p.birth_mask = 0) (hs : p.survive_mask = 0) (hN : 3 ≤ p.num_states) :
    ∀ (g : Nat → Nat) (i : Nat),
      backBuffer p g i
        = (if g i = 0 then 0 else if g i = 1 then 2
           else if g i + 1 ≥ p.num_states then 0 else g i + 1) := by
  intro g i
  have h2 : ¬ p.num_states = 2 := by omega
  simp only [backBuffer, mainCell, Nat.mod_add_div', hb, hs, Nat.zero_testBit, h2]
  simp

/-- C5: with `numStates = N ≥ 3` and both masks empty, a cell starting at
state `1` moves to `2` on the first step, then increments each step
(`k`-th step gives state `k+1` for `1 ≤ k ≤ N-2`), and reaches `0` after
exactly `N-1` steps; cells starting at `0` stay at `0` forever. -/
theorem decay_chain (p : Params) (g : Nat → Nat) (i0 : Nat)
    (hb : p.birth_mask = 0) (hs : p.survive_mask = 0) (hN : 3 ≤ p.num_states)
    (h1 : g i0 = 1) :
    (backBuffer p)^[1] g i0 = 2
    ∧ (∀ k, 1 ≤ k → k ≤ p.num_states - 2 → (backBuffer p)^[k] g i0 = k + 1)
    ∧ (backBuffer p)^[p.num_states - 1] g i0 = 0
    ∧ (∀ j, g j = 0 → ∀ k, (backBuffer p)^[k] g j = 0) := by
  have L := backBuffer_masks_zero p hb hs hN
  have key : ∀ k, 1 ≤ k → k ≤ p.num_states - 2 →
      (backBuffer p)^[k] g i0 = k + 1 := by
    intro k hk1 hk2
    induction k with
    | zero => omega
    | succ n ih =>
      rcases Nat.eq_zero_or_pos n with hn0 | hn1
      · subst hn0
        rw [Function.iterate_one, L g i0, h1]
        norm_num
      · have hle : n ≤ p.num_states - 2 := by omega
        have hv := ih hn1 hle
        rw [Function.iterate_succ_apply', L _ i0, hv]
        have c0 : ¬ n + 1 = 0 := by omega
        have c1 : ¬ n + 1 = 1 := by omega
        have c2 : ¬ n + 1 + 1 ≥ p.num_states := by omega
        simp [c0, c1, c2]
  have dead : ∀ j, g j = 0 → ∀ k, (backBuffer p)^[k] g j = 0 := by
    intro j hj k
    induction k with
    | zero => simpa using hj
    | succ n ih =>
      rw [Function.iterate_succ_apply', L _ j, ih]
      norm_num
  refine ⟨?_, key, ?_, dead⟩
  · have := key 1 (by omega) (by omega)
    simpa using this
  · have hsplit : p.num_states - 1 = (p.num_states - 2) + 1 := by omega
    have hv := key (p.num_states - 2) (by omega) (by omega)
    rw [hsplit, Function.iterate_succ_apply', L _ i0, hv]
    have c0 : ¬ p.num_states - 2 + 1 = 0 := by omega
    have c1 : ¬ p.num_states - 2 + 1 = 1 := by omega
    have c2 : p.num_states - 2 + 1 + 1 ≥ p.num_states := by omega
    simp [c0, c1, c2]

/-- Witness for C5: with `numStates = 4` the single alive cell is at state
`0` after exactly `3` steps. -/
theorem decay_chain_witness : (backBuffer pDecay)^[3] decayFront 4 = 0 := by
  have h := decay_chain pDecay decayFront 4 rfl rfl (by decide) (by decide)
  exact h.2.2.1

/-- C6: under the hexagonal lattice the neighbor count of `(x, y)` is the
number of alive cells among exactly the six parity-selected odd-r offsets,
and it never exceeds 6. -/
theorem hex_count_parity_offsets (p : Params) (g : Nat → Nat) (x y : Int)
    (hn : p.neighborhood = .hexagonal) :
    count_neighbors p g x y
      = ((if y % 2 = 1 then hexOffsetsOddSpec else hexOffsetsEvenSpec).countP
          (fun o => is_alive (get_cell p g (x + o.1) (y + o.2))))
    ∧ count_neighbors p g x y ≤ 6 := by
  have hc : count_neighbors p g x y = count_neighbors_hexagonal p g x y := by
    simp [count_neighbors, hn]
  have heq : count_neighbors p g x y
      = ((if y % 2 = 1 then hexOffsetsOddSpec else hexOffsetsEvenSpec).countP
          (fun o => is_alive (get_cell p g (x + o.1) (y + o.2)))) := by
    rw [hc]
    by_cases hodd : y % 2 = 1 <;>
      simp [count_neighbors_hexagonal, hexOffsetsOddSpec, hexOffsetsEvenSpec,
        hodd, List.countP_cons, sub_eq_add_neg] <;>
      omega
  refine ⟨heq, ?_⟩
  rw [heq]
  by_cases hodd : y % 2 = 1 <;>
    simp only [hodd, if_true, if_false, ite_true, ite_false, hexOffsetsOddSpec,
      hexOffsetsEvenSpec, List.countP_cons, List.countP_nil] <;>
    split_ifs <;> omega

/-- Witness for C6 at the center cell of the 5×5 hexagonal grid with the
blinker front buffer. -/
theorem hex_count_parity_offsets_witness :
    count_neighbors pHex5 blinkerFront 2 2 ≤ 6 :=
  (hex_count_parity_offsets pHex5 blinkerFront 2 2 rfl).2

/-- Two `Nat`s that are equal to `1` together have the same `== 1` test. -/
theorem beq_one_congr {a b : Nat} (h : a = 1 ↔ b = 1) : (a == 1) = (b == 1) := by
  by_cases ha : a = 1
  · simp [ha, h.mp ha]
  · have hb : ¬ b = 1 := fun hb => ha (h.mpr hb)
    simp [ha, hb]

/-- `get_cell` reads only indices inside the `width*height` buffer: front
buffers that agree there resolve identically. -/
theorem get_cell_congr (p : Params) (g g2 : Nat → Nat)
    (hgg : ∀ i, i < p.width * p.height → g i = g2 i) (x y : Int) :
    get_cell p g x y = get_cell p g2 x y := by
  simp only [get_cell]
  split_ifs
  all_goals first
  | rfl
  | (rename_i hfin
     simp only [Bool.or_eq_true, decide_eq_true_eq, not_or, not_lt, not_le] at hfin
     apply hgg
     apply rowMajor_lt <;> omega)

/-- The aliveness of a resolved neighbor depends only on which front cells
hold state exactly `1`. -/
theorem alive_congr (p : Params) (g g2 : Nat → Nat)
    (hal : ∀ i, g i = 1 ↔ g2 i = 1) (x y : Int) :
    is_alive (get_cell p g x y) = is_alive (get_cell p g2 x y) := by
  simp only [get_cell]
  split_ifs
  all_goals first
  | rfl
  | (simp only [is_alive]
     exact beq_one_congr (hal _))

/-- All five neighbor counters are determined by the aliveness of the
resolved cells. -/
theorem count_neighbors_congr (p : Params) (g g2 : Nat → Nat)
    (halive : ∀ a b : Int, is_alive (get_cell p g a b) = is_alive (get_cell p g2 a b))
    (x y : Int) :
    count_neighbors p g x y = count_neighbors p g2 x y := by
  cases hnb : p.neighborhood <;>
    simp only [count_neighbors, hnb, count_neighbors_moore,
      count_neighbors_von_neumann, count_neighbors_extended,
      count_neighbors_hexagonal, count_neighbors_extended_hexagonal,
      countAliveOffsets, halive]

/-- C7: the step evaluator is a pure function of the front buffer contents
and the rule parameters: two runs over front buffers that agree on every
buffer index produce identical back buffers, cell for cell. -/
theorem step_two_run_determinism (p : Params) (g g2 : Nat → Nat)
    (hfront : ∀ i, i < p.width * p.height → g i = g2 i) :
    ∀ i, i < p.width * p.height → backBuffer p g i = backBuffer p g2 i := by
  intro i hi
  have halive : ∀ a b : Int,
      is_alive (get_cell p g a b) = is_alive (get_cell p g2 a b) := by
    intro a b
    rw [get_cell_congr p g g2 hfront]
  simp only [backBuffer, mainCell, Nat.mod_add_div']
  rw [hfront i hi, count_neighbors_congr p g g2 halive]

/-- Witness for C7: the back buffers of the two runs agree at cell 12. -/
theorem step_two_run_determinism_witness :
    backBuffer pConway5 blinkerFront 12 = backBuffer pConway5 blinkerJunkOutside 12 := by
  have h := step_two_run_determinism pConway5 blinkerFront blinkerJunkOutside
    (by intro i hi
        have h25 : i < 25 := hi
        simp [blinkerJunkOutside, h25]) 12 (by decide)
  exact h

/-- C3 counterexample: in the shader's aggregation a dying neighbor
(state 2 with `numStates = 4`) contributes nothing — the count at the
adjacent cell `(1,1)` is `0` — although the claim's formula assigns it the
nonzero contribution `V[⌊(2/3)·127⌋] = 1` under the constant-one vitality
table. -/
theorem dying_neighbor_contributes_nothing :
    count_neighbors pC3 gC3 1 1 = 0
    ∧ specNeighborContribution 4 2 (fun _ => 1) = 1 := by
  constructor
  · decide
  · norm_num [specNeighborContribution]

/-- C3 amended: in the aggregation feeding the step evaluator a resolved
neighbor contributes `1` exactly when its state is `1` and `0` otherwise;
no vitality table enters — the effective count depends only on which front
cells hold state exactly `1`. -/
theorem count_depends_only_on_alive_set (p : Params) (g g2 : Nat → Nat)
    (hal : ∀ i, g i = 1 ↔ g2 i = 1) (x y : Int) :
    count_neighbors p g x y = count_neighbors p g2 x y :=
  count_neighbors_congr p g g2 (alive_congr p g g2 hal) x y

/-- Witness for the amended C3: zeroing out the dying cell leaves the
neighbor count at `(1,1)` unchanged. -/
theorem count_depends_only_on_alive_set_witness :
    count_neighbors pC3 gC3 1 1 = count_neighbors pC3 (fun _ => 0) 1 1 := by
  have h := count_depends_only_on_alive_set pC3 gC3 (fun _ => 0)
    (by intro i; unfold gC3; split <;> simp) 1 1
  exact h

/-- Bit `t` of an OR-accumulation over distinct shift positions: set iff it
was set in the accumulator or its position occurs in the list with the
guard holding. -/
theorem packFold_testBit (P : Nat → Prop) [DecidablePred P] (L : List Nat)
    (a t : Nat) :
    (L.foldl (fun acc b => if P b then acc ||| (1 <<< b) else acc) a).testBit t
      = (a.testBit t || (decide (t ∈ L) && decide (P t))) := by
  induction L generalizing a with
  | nil => simp
  | cons b L ih =>
    simp only [List.foldl_cons]
    rw [ih]
    have h1 : (1 <<< b) = 2 ^ b := by rw [Nat.shiftLeft_eq, one_mul]
    by_cases hbt : b = t
    · subst hbt
      by_cases hPb : P b <;>
        simp [hPb, Nat.testBit_or, h1, Nat.testBit_two_pow, List.mem_cons]
    · have htb : ¬ t = b := fun h => hbt h.symm
      by_cases hPb : P b <;>
        simp [hPb, hbt, htb, Nat.testBit_or, h1, Nat.testBit_two_pow,
          List.mem_cons]

/-- Bit `b` of packed byte `j` is set exactly when cell `8j + b` is
nonzero. -/
theorem packByte_testBit (grid : List Nat) (j b : Nat) (hb : b < 8) :
    (packByte grid j).testBit b = decide (grid.getD (8 * j + b) 0 ≠ 0) := by
  unfold packByte
  rw [packFold_testBit]
  simp [Nat.zero_testBit, List.mem_range, hb]

/-- C8: for a grid whose cells are all `0` or `1`, unpacking the packed
bitset returns the original grid element-for-element. -/
theorem bitset_round_trip (grid : List Nat)
    (hv : ∀ v ∈ grid, v = 0 ∨ v = 1) :
    unpackBitsetTo01 (pack01ToBitset grid) grid.length = grid := by
  apply List.ext_getElem
  · simp [unpackBitsetTo01]
  · intro i h1 h2
    simp only [unpackBitsetTo01, List.getElem_map, List.getElem_range]
    have hlen2 : i / 8 < (pack01ToBitset grid).length := by
      simp only [pack01ToBitset, List.length_map, List.length_range]
      omega
    rw [List.getD_eq_getElem _ _ hlen2]
    simp only [pack01ToBitset, List.getElem_map, List.getElem_range]
    have ht : packByte grid (i / 8) >>> (i % 8) &&& 1
        = if (packByte grid (i / 8)).testBit (i % 8) then 1 else 0 := by
      rw [Nat.and_one_is_mod, Nat.shiftRight_eq_div_pow, Nat.testBit_to_div_mod]
      rcases Nat.mod_two_eq_zero_or_one (packByte grid (i / 8) / 2 ^ (i % 8)) with h | h <;>
        simp [h]
    rw [ht, packByte_testBit grid (i / 8) (i % 8) (by omega)]
    have hidx : 8 * (i / 8) + i % 8 = i := by omega
    rw [hidx, List.getD_eq_getElem _ _ h2]
    rcases hv (grid[i]) (List.getElem_mem h2) with h0 | h0 <;> simp [h0]

/-- Witness for C8 on the 3-cell grid `[1, 0, 1]`. -/
theorem bitset_round_trip_witness :
    unpackBitsetTo01 (pack01ToBitset [1, 0, 1]) 3 = [1, 0, 1] :=
  bitset_round_trip [1, 0, 1] (by decide)

/-- C9 counterexample: a single-cell grid in dying state `2` packs to a
set bit although its state is not `1` — the persisted bitset is not the
`s == 1` projection. -/
theorem tape_records_dying_cell_as_set_bit :
    ((pack01ToBitset [2]).getD 0 0).testBit 0 = true ∧ [2].getD 0 0 ≠ 1 := by
  constructor
  · decide
  · decide

/-- C9 amended: bit `i` of `pack01ToBitset(grid)` is set if and only if
cell `i` is nonzero — decay states `s ≥ 2` are recorded as `1` (alive),
not `0`; the bitset is the `s ≠ 0` projection. -/
theorem tape_bit_is_nonzero_projection (grid : List Nat) (i : Nat)
    (hi : i < grid.length) :
    ((pack01ToBitset grid).getD (i / 8) 0).testBit (i % 8)
      = decide (grid.getD i 0 ≠ 0) := by
  have hlen2 : i / 8 < (pack01ToBitset grid).length := by
    simp only [pack01ToBitset, List.length_map, List.length_range]
    omega
  rw [List.getD_eq_getElem _ _ hlen2]
  simp only [pack01ToBitset, List.getElem_map, List.getElem_range]
  rw [packByte_testBit grid (i / 8) (i % 8) (by omega)]
  have hidx : 8 * (i / 8) + i % 8 = i := by omega
  rw [hidx]

/-- Witness for the amended C9 on the dying-state grid `[2]`. -/
theorem tape_bit_is_nonzero_projection_witness :
    ((pack01ToBitset [2]).getD 0 0).testBit 0 = decide ([2].getD 0 0 ≠ 0) :=
  tape_bit_is_nonzero_projection [2] 0 (by decide)

/-- Crossing the right edge once on `mobiusX` (`W ≤ x < 2W`): the CPU
resolver wraps `x` once and mirrors `y`. -/
theorem mobiusX_once (W H : Nat) (x y : Int) (hW : 1 ≤ W) (hH : 1 ≤ H)
    (hy0 : 0 ≤ y) (hyH : y < (H : Int)) (hx1 : (W : Int) ≤ x)
    (hx2 : x < 2 * (W : Int)) :
    transformCoordinate x y W H .mobiusX
      = some (x - (W : Int), (H : Int) - 1 - y) := by
  have hw0 : (0 : Int) < (W : Int) := by exact_mod_cast hW
  have hxw : x = (x - W) + (W : Int) * 1 := by ring
  have hdiv : x / (W : Int) = 1 := by
    conv_lhs => rw [hxw]
    rw [Int.add_mul_ediv_left _ _ (by omega : (W : Int) ≠ 0),
      Int.ediv_eq_zero_of_lt (by omega) (by omega)]
    norm_num
  have hmod : x % (W : Int) = x - W := by
    conv_lhs => rw [hxw]
    rw [Int.add_mul_emod_self_left]
    apply Int.emod_eq_of_lt <;> omega
  simp only [transformCoordinate, isWrappingX, flipsOnWrapX, flipsOnWrapY,
    hdiv, hmod]
  have c1 : ¬ x < 0 := by omega
  have c2 : x ≥ (W : Int) := hx1
  have c3 : ¬ y < 0 := by omega
  have c4 : ¬ y ≥ (H : Int) := by omega
  simp [c1, c2, c3, c4]
  constructor
  · omega
  · omega

/-- Crossing the right edge twice on `mobiusX` (`x = 2` on a width-1
grid): the wrap count is even, so no flip is applied. -/
theorem mobiusX_twice (H : Nat) (y : Int) (hH : 1 ≤ H) (hy0 : 0 ≤ y)
    (hyH : y < (H : Int)) :
    transformCoordinate 2 y 1 H .mobiusX = some (0, y) := by
  simp only [transformCoordinate, isWrappingX, flipsOnWrapX, flipsOnWrapY]
  have c3 : ¬ y < 0 := by omega
  have c4 : ¬ y ≥ (H : Int) := by omega
  norm_num [c3, c4]

/-- C4: on `boundary = mobiusX` the CPU topology resolver flips exactly
when the wrap count is odd: a request crossing the right edge once
(`W ≤ x < 2W`) resolves with `y` replaced by `H−1−y`, while a request
crossing twice (an offset of `+2` past the edge of a width-1 grid)
resolves to the original `y`, for every grid size and in-range `y`. -/
theorem mobiusX_flip_parity :
    (∀ (W H : Nat) (x y : Int), 1 ≤ W → 1 ≤ H → 0 ≤ y → y < (H : Int) →
      (W : Int) ≤ x → x < 2 * (W : Int) →
      transformCoordinate x y W H .mobiusX
        = some (x - (W : Int), (H : Int) - 1 - y))
    ∧ (∀ (H : Nat) (y : Int), 1 ≤ H → 0 ≤ y → y < (H : Int) →
      transformCoordinate 2 y 1 H .mobiusX = some (0, y)) :=
  ⟨fun W H x y hW hH hy0 hyH hx1 hx2 =>
      mobiusX_once W H x y hW hH hy0 hyH hx1 hx2,
    fun H y hH hy0 hyH => mobiusX_twice H y hH hy0 hyH⟩

/-- Witness for C4: one crossing on a 5×5 grid flips the row; two
crossings on a width-1 grid restore it. -/
theorem mobiusX_flip_parity_witness :
    transformCoordinate 5 1 5 5 .mobiusX = some (0, 3)
    ∧ transformCoordinate 2 1 1 2 .mobiusX = some (0, 1) := by
  constructor
  · simpa using mobiusX_flip_parity.1 5 5 5 1 (by decide) (by decide)
      (by decide) (by decide) (by decide) (by decide)
  · simpa using mobiusX_flip_parity.2 2 1 (by decide) (by decide) (by decide)

/-- Euclidean `((a % b) + b) % b` on one negative wrap. -/
theorem emod_fix_neg (a b : Int) (hb : 0 < b) (h1 : -b ≤ a) (h2 : a < 0) :
    ((a % b) + b) % b = a + b := by
  have h3 : a % b = a + b := by
    conv_lhs => rw [show a = (a + b) + b * (-1) by ring]
    rw [Int.add_mul_emod_self_left]
    apply Int.emod_eq_of_lt <;> omega
  rw [h3, show a + b + b = (a + b) + b * 1 by ring, Int.add_mul_emod_self_left]
  apply Int.emod_eq_of_lt <;> omega

/-- Euclidean remainder on one positive wrap. -/
theorem emod_plain_pos (a b : Int) (hb : 0 < b) (h1 : b ≤ a) (h2 : a < 2 * b) :
    a % b = a - b := by
  conv_lhs => rw [show a = (a - b) + b * 1 by ring]
  rw [Int.add_mul_emod_self_left]
  apply Int.emod_eq_of_lt <;> omega

/-- Euclidean `((a % b) + b) % b` on one positive wrap. -/
theorem emod_fix_pos (a b : Int) (hb : 0 < b) (h1 : b ≤ a) (h2 : a < 2 * b) :
    ((a % b) + b) % b = a - b := by
  rw [emod_plain_pos a b hb h1 h2,
    show a - b + b = (a - b) + b * 1 by ring, Int.add_mul_emod_self_left]
  apply Int.emod_eq_of_lt <;> omega

/-- Floor division of a single positive wrap is `1`. -/
theorem ediv_one_pos (a b : Int) (hb : 0 < b) (h1 : b ≤ a) (h2 : a < 2 * b) :
    a / b = 1 := by
  conv_lhs => rw [show a = (a - b) + b * 1 by ring]
  rw [Int.add_mul_ediv_left _ _ (by omega : b ≠ 0),
    Int.ediv_eq_zero_of_lt (by omega) (by omega)]
  norm_num

/-- C10 counterexample: a request crossing the right edge twice
(`x = 2` on the width-1 Möbius grid) resolves to cell `(0,0)` (index 0)
under `transformCoordinate`, but the shader's `get_cell` applies the flip
regardless of wrap parity and reads cell `(0,1)` (index 1): on the
identity buffer it returns `1`, not the value of the cell the CPU
resolver names. -/
theorem resolver_disagreement_double_wrap :
    transformCoordinate 2 0 1 2 .mobiusX = some (0, 0)
    ∧ get_cell pMobius12 idGrid 2 0 ≠ idGrid 0 := by
  constructor
  · decide
  · decide

/-- C10 amended: on requests that cross each axis at most once
(`-W ≤ x < 2W`, `-H ≤ y < 2H` — all requests the engine's radius-≤2
templates generate on grids with `W, H ≥ 2`), the shader's `get_cell` and
the CPU resolver `transformCoordinate` agree for every boundary mode:
`get_cell` returns `0` exactly when the CPU resolver reports absent, and
otherwise reads the very cell the CPU resolver names.  (On multi-wrap
requests they disagree: see the counterexample.) -/
theorem resolver_agreement_single_wrap (p : Params) (g : Nat → Nat) (x y : Int)
    (hW : 1 ≤ p.width) (hH : 1 ≤ p.height)
    (hx1 : -(p.width : Int) ≤ x) (hx2 : x < 2 * (p.width : Int))
    (hy1 : -(p.height : Int) ≤ y) (hy2 : y < 2 * (p.height : Int)) :
    get_cell p g x y
      = (transformCoordinate x y p.width p.height p.boundary_mode).elim 0
          (fun c => g (c.1.toNat + c.2.toNat * p.width)) := by
  have hw0 : (0 : Int) < (p.width : Int) := by exact_mod_cast hW
  have hh0 : (0 : Int) < (p.height : Int) := by exact_mod_cast hH
  have hIWX : ∀ b, isWrappingX b = wraps_x b := by intro b; cases b <;> rfl
  have hIWY : ∀ b, isWrappingY b = wraps_y b := by intro b; cases b <;> rfl
  have hFWX : ∀ b, flipsOnWrapX b = flips_x b := by intro b; cases b <;> rfl
  have hFWY : ∀ b, flipsOnWrapY b = flips_y b := by intro b; cases b <;> rfl
  have hp1 : ((1 : Int)) % 2 = 1 := by norm_num
  have hp0 : ¬ (((0 : Int)) % 2 = 1) := by norm_num
  simp only [get_cell, transformCoordinate, hIWX, hIWY, hFWX, hFWY]
  rcases (show (x < 0 ∨ (0 ≤ x ∧ x < (p.width : Int)) ∨ ((p.width : Int) ≤ x)) by omega) with hxr | hxr | hxr <;>
    rcases (show (y < 0 ∨ (0 ≤ y ∧ y < (p.height : Int)) ∨ ((p.height : Int) ≤ y)) by omega) with hyr | hyr | hyr
  · -- x region B, y region B
      have hcx0 : x < 0 := hxr
      have ex1 : ((x % (p.width : Int)) + (p.width : Int)) % (p.width : Int) = x + (p.width : Int) :=
        emod_fix_neg x (p.width : Int) hw0 (by omega) hxr
      have exd : (-x - 1) / (p.width : Int) = 0 :=
        Int.ediv_eq_zero_of_lt (by omega) (by omega)
      have bx0 : ¬ (x + (p.width : Int) < 0) := by omega
      have bx1 : ¬ (x + (p.width : Int) ≥ (p.width : Int)) := by omega
      have cfx0 : ¬ ((p.width : Int) - 1 - (x + (p.width : Int)) < 0) := by omega
      have cfx1 : ¬ ((p.width : Int) - 1 - (x + (p.width : Int)) ≥ (p.width : Int)) := by omega
      have hcy0 : y < 0 := hyr
      have ey1 : ((y % (p.height : Int)) + (p.height : Int)) % (p.height : Int) = y + (p.height : Int) :=
        emod_fix_neg y (p.height : Int) hh0 (by omega) hyr
      have eyd : (-y - 1) / (p.height : Int) = 0 :=
        Int.ediv_eq_zero_of_lt (by omega) (by omega)
      have eyf : ((((p.height : Int) - 1 - y) % (p.height : Int)) + (p.height : Int)) % (p.height : Int) = (p.height : Int) - 1 - y - (p.height : Int) :=
        emod_fix_pos ((p.height : Int) - 1 - y) (p.height : Int) hh0 (by omega) (by omega)
      have by0 : ¬ (y + (p.height : Int) < 0) := by omega
      have by1 : ¬ (y + (p.height : Int) ≥ (p.height : Int)) := by omega
      have cfy0 : ¬ ((p.height : Int) - 1 - y - (p.height : Int) < 0) := by omega
      have cfy1 : ¬ ((p.height : Int) - 1 - y - (p.height : Int) ≥ (p.height : Int)) := by omega
      have cfy2 : ¬ ((p.height : Int) - 1 - (y + (p.height : Int)) < 0) := by omega
      have cfy3 : ¬ ((p.height : Int) - 1 - (y + (p.height : Int)) ≥ (p.height : Int)) := by omega
      cases hwx : wraps_x p.boundary_mode <;>
        cases hfx : flips_x p.boundary_mode <;>
        cases hwy : wraps_y p.boundary_mode <;>
        cases hfy : flips_y p.boundary_mode <;>
        simp [hwx, hfx, hwy, hfy, ge_iff_le, hp1, hp0, zero_add, Option.elim, hcx0, ex1, exd, bx0, bx1, cfx0, cfx1, hcy0, ey1, eyd, eyf, by0, by1, cfy0, cfy1, cfy2, cfy3] <;>
        first
        | rfl
        | omega
        | (congr 1 <;>
            first
            | rfl
            | omega
            | (congr 1 <;>
                first
                | rfl
                | omega
                | (congr 1 <;> first | rfl | omega)))
  · -- x region B, y region 0
      have hcx0 : x < 0 := hxr
      have ex1 : ((x % (p.width : Int)) + (p.width : Int)) % (p.width : Int) = x + (p.width : Int) :=
        emod_fix_neg x (p.width : Int) hw0 (by omega) hxr
      have exd : (-x - 1) / (p.width : Int) = 0 :=
        Int.ediv_eq_zero_of_lt (by omega) (by omega)
      have bx0 : ¬ (x + (p.width : Int) < 0) := by omega
      have bx1 : ¬ (x + (p.width : Int) ≥ (p.width : Int)) := by omega
      have cfx0 : ¬ ((p.width : Int) - 1 - (x + (p.width : Int)) < 0) := by omega
      have cfx1 : ¬ ((p.width : Int) - 1 - (x + (p.width : Int)) ≥ (p.width : Int)) := by omega
      have hcy0 : ¬ y < 0 := by omega
      have hcy1 : ¬ y ≥ (p.height : Int) := by omega
      have cfy0 : ¬ ((p.height : Int) - 1 - y < 0) := by omega
      have cfy1 : ¬ ((p.height : Int) - 1 - y ≥ (p.height : Int)) := by omega
      cases hwx : wraps_x p.boundary_mode <;>
        cases hfx : flips_x p.boundary_mode <;>
        cases hwy : wraps_y p.boundary_mode <;>
        cases hfy : flips_y p.boundary_mode <;>
        simp [hwx, hfx, hwy, hfy, ge_iff_le, hp1, hp0, zero_add, Option.elim, hcx0, ex1, exd, bx0, bx1, cfx0, cfx1, hcy0, hcy1, cfy0, cfy1] <;>
        first
        | rfl
        | omega
        | (congr 1 <;>
            first
            | rfl
            | omega
            | (congr 1 <;>
                first
                | rfl
                | omega
                | (congr 1 <;> first | rfl | omega)))
  · -- x region B, y region C
      have hcx0 : x < 0 := hxr
      have ex1 : ((x % (p.width : Int)) + (p.width : Int)) % (p.width : Int) = x + (p.width : Int) :=
        emod_fix_neg x (p.width : Int) hw0 (by omega) hxr
      have exd : (-x - 1) / (p.width : Int) = 0 :=
        Int.ediv_eq_zero_of_lt (by omega) (by omega)
      have bx0 : ¬ (x + (p.width : Int) < 0) := by omega
      have bx1 : ¬ (x + (p.width : Int) ≥ (p.width : Int)) := by omega
      have cfx0 : ¬ ((p.width : Int) - 1 - (x + (p.width : Int)) < 0) := by omega
      have cfx1 : ¬ ((p.width : Int) - 1 - (x + (p.width : Int)) ≥ (p.width : Int)) := by omega
      have hcy0 : ¬ y < 0 := by omega
      have hcy1 : y ≥ (p.height : Int) := hyr
      have ey1 : ((y % (p.height : Int)) + (p.height : Int)) % (p.height : Int) = y - (p.height : Int) :=
        emod_fix_pos y (p.height : Int) hh0 hyr (by omega)
      have ey2 : y % (p.height : Int) = y - (p.height : Int) := emod_plain_pos y (p.height : Int) hh0 hyr (by omega)
      have eyd : y / (p.height : Int) = 1 := ediv_one_pos y (p.height : Int) hh0 hyr (by omega)
      have eyf : ((((p.height : Int) - 1 - y) % (p.height : Int)) + (p.height : Int)) % (p.height : Int) = (p.height : Int) - 1 - y + (p.height : Int) :=
        emod_fix_neg ((p.height : Int) - 1 - y) (p.height : Int) hh0 (by omega) (by omega)
      have by0 : ¬ (y - (p.height : Int) < 0) := by omega
      have by1 : ¬ (y - (p.height : Int) ≥ (p.height : Int)) := by omega
      have cfy0 : ¬ ((p.height : Int) - 1 - y + (p.height : Int) < 0) := by omega
      have cfy1 : ¬ ((p.height : Int) - 1 - y + (p.height : Int) ≥ (p.height : Int)) := by omega
      have cfy2 : ¬ ((p.height : Int) - 1 - (y - (p.height : Int)) < 0) := by omega
      have cfy3 : ¬ ((p.height : Int) - 1 - (y - (p.height : Int)) ≥ (p.height : Int)) := by omega
      cases hwx : wraps_x p.boundary_mode <;>
        cases hfx : flips_x p.boundary_mode <;>
        cases hwy : wraps_y p.boundary_mode <;>
        cases hfy : flips_y p.boundary_mode <;>
        simp [hwx, hfx, hwy, hfy, ge_iff_le, hp1, hp0, zero_add, Option.elim, hcx0, ex1, exd, bx0, bx1, cfx0, cfx1, hcy0, hcy1, ey1, ey2, eyd, eyf, by0, by1, cfy0, cfy1, cfy2, cfy3] <;>
        first
        | rfl
        | omega
        | (congr 1 <;>
            first
            | rfl
            | omega
            | (congr 1 <;>
                first
                | rfl
                | omega
                | (congr 1 <;> first | rfl | omega)))
  · -- x region 0, y region B
      have hcx0 : ¬ x < 0 := by omega
      have hcx1 : ¬ x ≥ (p.width : Int) := by omega
      have cfx0 : ¬ ((p.width : Int) - 1 - x < 0) := by omega
      have cfx1 : ¬ ((p.width : Int) - 1 - x ≥ (p.width : Int)) := by omega
      have hcy0 : y < 0 := hyr
      have ey1 : ((y % (p.height : Int)) + (p.height : Int)) % (p.height : Int) = y + (p.height : Int) :=
        emod_fix_neg y (p.height : Int) hh0 (by omega) hyr
      have eyd : (-y - 1) / (p.height : Int) = 0 :=
        Int.ediv_eq_zero_of_lt (by omega) (by omega)
      have eyf : ((((p.height : Int) - 1 - y) % (p.height : Int)) + (p.height : Int)) % (p.height : Int) = (p.height : Int) - 1 - y - (p.height : Int) :=
        emod_fix_pos ((p.height : Int) - 1 - y) (p.height : Int) hh0 (by omega) (by omega)
      have by0 : ¬ (y + (p.height : Int) < 0) := by omega
      have by1 : ¬ (y + (p.height : Int) ≥ (p.height : Int)) := by omega
      have cfy0 : ¬ ((p.height : Int) - 1 - y - (p.height : Int) < 0) := by omega
      have cfy1 : ¬ ((p.height : Int) - 1 - y - (p.height : Int) ≥ (p.height : Int)) := by omega
      have cfy2 : ¬ ((p.height : Int) - 1 - (y + (p.height : Int)) < 0) := by omega
      have cfy3 : ¬ ((p.height : Int) - 1 - (y + (p.height : Int)) ≥ (p.height : Int)) := by omega
      cases hwx : wraps_x p.boundary_mode <;>
        cases hfx : flips_x p.boundary_mode <;>
        cases hwy : wraps_y p.boundary_mode <;>
        cases hfy : flips_y p.boundary_mode <;>
        simp [hwx, hfx, hwy, hfy, ge_iff_le, hp1, hp0, zero_add, Option.elim, hcx0, hcx1, cfx0, cfx1, hcy0, ey1, eyd, eyf, by0, by1, cfy0, cfy1, cfy2, cfy3] <;>
        first
        | rfl
        | omega
        | (congr 1 <;>
            first
            | rfl
            | omega
            | (congr 1 <;>
                first
                | rfl
                | omega
                | (congr 1 <;> first | rfl | omega)))
  · -- x region 0, y region 0
      have hcx0 : ¬ x < 0 := by omega
      have hcx1 : ¬ x ≥ (p.width : Int) := by omega
      have cfx0 : ¬ ((p.width : Int) - 1 - x < 0) := by omega
      have cfx1 : ¬ ((p.width : Int) - 1 - x ≥ (p.width : Int)) := by omega
      have hcy0 : ¬ y < 0 := by omega
      have hcy1 : ¬ y ≥ (p.height : Int) := by omega
      have cfy0 : ¬ ((p.height : Int) - 1 - y < 0) := by omega
      have cfy1 : ¬ ((p.height : Int) - 1 - y ≥ (p.height : Int)) := by omega
      cases hwx : wraps_x p.boundary_mode <;>
        cases hfx : flips_x p.boundary_mode <;>
        cases hwy : wraps_y p.boundary_mode <;>
        cases hfy : flips_y p.boundary_mode <;>
        simp [hwx, hfx, hwy, hfy, ge_iff_le, hp1, hp0, zero_add, Option.elim, hcx0, hcx1, cfx0, cfx1, hcy0, hcy1, cfy0, cfy1] <;>
        first
        | rfl
        | omega
        | (congr 1 <;>
            first
            | rfl
            | omega
            | (congr 1 <;>
                first
                | rfl
                | omega
                | (congr 1 <;> first | rfl | omega)))
  · -- x region 0, y region C
      have hcx0 : ¬ x < 0 := by omega
      have hcx1 : ¬ x ≥ (p.width : Int) := by omega
      have cfx0 : ¬ ((p.width : Int) - 1 - x < 0) := by omega
      have cfx1 : ¬ ((p.width : Int) - 1 - x ≥ (p.width : Int)) := by omega
      have hcy0 : ¬ y < 0 := by omega
      have hcy1 : y ≥ (p.height : Int) := hyr
      have ey1 : ((y % (p.height : Int)) + (p.height : Int)) % (p.height : Int) = y - (p.height : Int) :=
        emod_fix_pos y (p.height : Int) hh0 hyr (by omega)
      have ey2 : y % (p.height : Int) = y - (p.height : Int) := emod_plain_pos y (p.height : Int) hh0 hyr (by omega)
      have eyd : y / (p.height : Int) = 1 := ediv_one_pos y (p.height : Int) hh0 hyr (by omega)
      have eyf : ((((p.height : Int) - 1 - y) % (p.height : Int)) + (p.height : Int)) % (p.height : Int) = (p.height : Int) - 1 - y + (p.height : Int) :=
        emod_fix_neg ((p.height : Int) - 1 - y) (p.height : Int) hh0 (by omega) (by omega)
      have by0 : ¬ (y - (p.height : Int) < 0) := by omega
      have by1 : ¬ (y - (p.height : Int) ≥ (p.height : Int)) := by omega
      have cfy0 : ¬ ((p.height : Int) - 1 - y + (p.height : Int) < 0) := by omega
      have cfy1 : ¬ ((p.height : Int) - 1 - y + (p.height : Int) ≥ (p.height : Int)) := by omega
      have cfy2 : ¬ ((p.height : Int) - 1 - (y - (p.height : Int)) < 0) := by omega
      have cfy3 : ¬ ((p.height : Int) - 1 - (y - (p.height : Int)) ≥ (p.height : Int)) := by omega
      cases hwx : wraps_x p.boundary_mode <;>
        cases hfx : flips_x p.boundary_mode <;>
        cases hwy : wraps_y p.boundary_mode <;>
        cases hfy : flips_y p.boundary_mode <;>
        simp [hwx, hfx, hwy, hfy, ge_iff_le, hp1, hp0, zero_add, Option.elim, hcx0, hcx1, cfx0, cfx1, hcy0, hcy1, ey1, ey2, eyd, eyf, by0, by1, cfy0, cfy1, cfy2, cfy3] <;>
        first
        | rfl
        | omega
        | (congr 1 <;>
            first
            | rfl
            | omega
            | (congr 1 <;>
                first
                | rfl
                | omega
                | (congr 1 <;> first | rfl | omega)))
  · -- x region C, y region B
      have hcx0 : ¬ x < 0 := by omega
      have hcx1 : x ≥ (p.width : Int) := hxr
      have ex1 : ((x % (p.width : Int)) + (p.width : Int)) % (p.width : Int) = x - (p.width : Int) :=
        emod_fix_pos x (p.width : Int) hw0 hxr (by omega)
      have ex2 : x % (p.width : Int) = x - (p.width : Int) := emod_plain_pos x (p.width : Int) hw0 hxr (by omega)
      have exd : x / (p.width : Int) = 1 := ediv_one_pos x (p.width : Int) hw0 hxr (by omega)
      have bx0 : ¬ (x - (p.width : Int) < 0) := by omega
      have bx1 : ¬ (x - (p.width : Int) ≥ (p.width : Int)) := by omega
      have cfx0 : ¬ ((p.width : Int) - 1 - (x - (p.width : Int)) < 0) := by omega
      have cfx1 : ¬ ((p.width : Int) - 1 - (x - (p.width : Int)) ≥ (p.width : Int)) := by omega
      have hcy0 : y < 0 := hyr
      have ey1 : ((y % (p.height : Int)) + (p.height : Int)) % (p.height : Int) = y + (p.height : Int) :=
        emod_fix_neg y (p.height : Int) hh0 (by omega) hyr
      have eyd : (-y - 1) / (p.height : Int) = 0 :=
        Int.ediv_eq_zero_of_lt (by omega) (by omega)
      have eyf : ((((p.height : Int) - 1 - y) % (p.height : Int)) + (p.height : Int)) % (p.height : Int) = (p.height : Int) - 1 - y - (p.height : Int) :=
        emod_fix_pos ((p.height : Int) - 1 - y) (p.height : Int) hh0 (by omega) (by omega)
      have by0 : ¬ (y + (p.height : Int) < 0) := by omega
      have by1 : ¬ (y + (p.height : Int) ≥ (p.height : Int)) := by omega
      have cfy0 : ¬ ((p.height : Int) - 1 - y - (p.height : Int) < 0) := by omega
      have cfy1 : ¬ ((p.height : Int) - 1 - y - (p.height : Int) ≥ (p.height : Int)) := by omega
      have cfy2 : ¬ ((p.height : Int) - 1 - (y + (p.height : Int)) < 0) := by omega
      have cfy3 : ¬ ((p.height : Int) - 1 - (y + (p.height : Int)) ≥ (p.height : Int)) := by omega
      cases hwx : wraps_x p.boundary_mode <;>
        cases hfx : flips_x p.boundary_mode <;>
        cases hwy : wraps_y p.boundary_mode <;>
        cases hfy : flips_y p.boundary_mode <;>
        simp [hwx, hfx, hwy, hfy, ge_iff_le, hp1, hp0, zero_add, Option.elim, hcx0, hcx1, ex1, ex2, exd, bx0, bx1, cfx0, cfx1, hcy0, ey1, eyd, eyf, by0, by1, cfy0, cfy1, cfy2, cfy3] <;>
        first
        | rfl
        | omega
        | (congr 1 <;>
            first
            | rfl
            | omega
            | (congr 1 <;>
                first
                | rfl
                | omega
                | (congr 1 <;> first | rfl | omega)))
  · -- x region C, y region 0
      have hcx0 : ¬ x < 0 := by omega
      have hcx1 : x ≥ (p.width : Int) := hxr
      have ex1 : ((x % (p.width : Int)) + (p.width : Int)) % (p.width : Int) = x - (p.width : Int) :=
        emod_fix_pos x (p.width : Int) hw0 hxr (by omega)
      have ex2 : x % (p.width : Int) = x - (p.width : Int) := emod_plain_pos x (p.width : Int) hw0 hxr (by omega)
      have exd : x / (p.width : Int) = 1 := ediv_one_pos x (p.width : Int) hw0 hxr (by omega)
      have bx0 : ¬ (x - (p.width : Int) < 0) := by omega
      have bx1 : ¬ (x - (p.width : Int) ≥ (p.width : Int)) := by omega
      have cfx0 : ¬ ((p.width : Int) - 1 - (x - (p.width : Int)) < 0) := by omega
      have cfx1 : ¬ ((p.width : Int) - 1 - (x - (p.width : Int)) ≥ (p.width : Int)) := by omega
      have hcy0 : ¬ y < 0 := by omega
      have hcy1 : ¬ y ≥ (p.height : Int) := by omega
      have cfy0 : ¬ ((p.height : Int) - 1 - y < 0) := by omega
      have cfy1 : ¬ ((p.height : Int) - 1 - y ≥ (p.height : Int)) := by omega
      cases hwx : wraps_x p.boundary_mode <;>
        cases hfx : flips_x p.boundary_mode <;>
        cases hwy : wraps_y p.boundary_mode <;>
        cases hfy : flips_y p.boundary_mode <;>
        simp [hwx, hfx, hwy, hfy, ge_iff_le, hp1, hp0, zero_add, Option.elim, hcx0, hcx1, ex1, ex2, exd, bx0, bx1, cfx0, cfx1, hcy0, hcy1, cfy0, cfy1] <;>
        first
        | rfl
        | omega
        | (congr 1 <;>
            first
            | rfl
            | omega
            | (congr 1 <;>
                first
                | rfl
                | omega
                | (congr 1 <;> first | rfl | omega)))
  · -- x region C, y region C
      have hcx0 : ¬ x < 0 := by omega
      have hcx1 : x ≥ (p.width : Int) := hxr
      have ex1 : ((x % (p.width : Int)) + (p.width : Int)) % (p.width : Int) = x - (p.width : Int) :=
        emod_fix_pos x (p.width : Int) hw0 hxr (by omega)
      have ex2 : x % (p.width : Int) = x - (p.width : Int) := emod_plain_pos x (p.width : Int) hw0 hxr (by omega)
      have exd : x / (p.width : Int) = 1 := ediv_one_pos x (p.width : Int) hw0 hxr (by omega)
      have bx0 : ¬ (x - (p.width : Int) < 0) := by omega
      have bx1 : ¬ (x - (p.width : Int) ≥ (p.width : Int)) := by omega
      have cfx0 : ¬ ((p.width : Int) - 1 - (x - (p.width : Int)) < 0) := by omega
      have cfx1 : ¬ ((p.width : Int) - 1 - (x - (p.width : Int)) ≥ (p.width : Int)) := by omega
      have hcy0 : ¬ y < 0 := by omega
      have hcy1 : y ≥ (p.height : Int) := hyr
      have ey1 : ((y % (p.height : Int)) + (p.height : Int)) % (p.height : Int) = y - (p.height : Int) :=
        emod_fix_pos y (p.height : Int) hh0 hyr (by omega)
      have ey2 : y % (p.height : Int) = y - (p.height : Int) := emod_plain_pos y (p.height : Int) hh0 hyr (by omega)
      have eyd : y / (p.height : Int) = 1 := ediv_one_pos y (p.height : Int) hh0 hyr (by omega)
      have eyf : ((((p.height : Int) - 1 - y) % (p.height : Int)) + (p.height : Int)) % (p.height : Int) = (p.height : Int) - 1 - y + (p.height : Int) :=
        emod_fix_neg ((p.height : Int) - 1 - y) (p.height : Int) hh0 (by omega) (by omega)
      have by0 : ¬ (y - (p.height : Int) < 0) := by omega
      have by1 : ¬ (y - (p.height : Int) ≥ (p.height : Int)) := by omega
      have cfy0 : ¬ ((p.height : Int) - 1 - y + (p.height : Int) < 0) := by omega
      have cfy1 : ¬ ((p.height : Int) - 1 - y + (p.height : Int) ≥ (p.height : Int)) := by omega
      have cfy2 : ¬ ((p.height : Int) - 1 - (y - (p.height : Int)) < 0) := by omega
      have cfy3 : ¬ ((p.height : Int) - 1 - (y - (p.height : Int)) ≥ (p.height : Int)) := by omega
      cases hwx : wraps_x p.boundary_mode <;>
        cases hfx : flips_x p.boundary_mode <;>
        cases hwy : wraps_y p.boundary_mode <;>
        cases hfy : flips_y p.boundary_mode <;>
        simp [hwx, hfx, hwy, hfy, ge_iff_le, hp1, hp0, zero_add, Option.elim, hcx0, hcx1, ex1, ex2, exd, bx0, bx1, cfx0, cfx1, hcy0, hcy1, ey1, ey2, eyd, eyf, by0, by1, cfy0, cfy1, cfy2, cfy3] <;>
        first
        | rfl
        | omega
        | (congr 1 <;>
            first
            | rfl
            | omega
            | (congr 1 <;>
                first
                | rfl
                | omega
                | (congr 1 <;> first | rfl | omega)))

/-- Witness for the amended C10: a projective-plane request that crosses
both edges once resolves identically on both paths. -/
theorem resolver_agreement_single_wrap_witness :
    get_cell pConway5proj blinkerFront 7 (-1)
      = (transformCoordinate 7 (-1) 5 5 .projectivePlane).elim 0
          (fun c => blinkerFront (c.1.toNat + c.2.toNat * 5)) := by
  have h := resolver_agreement_single_wrap pConway5proj blinkerFront 7 (-1)
    (by decide) (by decide) (by decide) (by decide) (by decide) (by decide)
  exact h
